import Mathlib

/-!
Shallow embedding of `bevy_file_asset` (`src/lib.rs`): a file-source asset
reader exposing `read`, `read_meta`, `is_directory` and `read_directory`
over the local filesystem, plus a blocking-offload helper `spawn_blocking`.

The filesystem is modelled as an explicit state (`Fs`): a finite association
list from paths to entries (regular file with bytes, or directory), together
with an oracle `entryFail` saying which directory entries fail individual
retrieval during enumeration. Paths are modelled in their parsed form: a list
of normal components, each component a list of characters (so the Rust
`Path::extension` / `PathBuf::set_extension` semantics can be embedded
faithfully on the final component).

Operations that in Rust perform two separate filesystem calls (an existence
or is-dir check followed by the actual read / enumeration) are embedded with
one filesystem state per call (`read_at`, `read_directory_at`), so that
check-then-act races are expressible; the single-state versions `read` and
`read_directory` are the race-free instantiations.
-/

set_option autoImplicit false

/-- A path component in parsed form: the characters of one normal component
of a Rust `Path` (separators removed, `.` components elided by parsing). -/
abbrev Component := List Char

/-- A filesystem path, modelled as its list of parsed components. -/
abbrev FPath := List Component

/-- Model of `std::io::ErrorKind` (the kinds this development distinguishes). -/
inductive IoErrorKind where
  | notFound
  | permissionDenied
  | isADirectory
  | notADirectory
  | other
  deriving DecidableEq

/-- Model of `std::io::Error`: only the kind is observable here. -/
structure IoError where
  kind : IoErrorKind
  deriving DecidableEq

/-- Model of `bevy::asset::io::AssetReaderError`: `NotFound(path)` or `Io(err)`. -/
inductive AssetReaderError where
  | NotFound (path : FPath)
  | Io (err : IoError)
  deriving DecidableEq

/-- Model of `bevy::asset::io::VecReader`: a reader over an in-memory byte vector. -/
structure VecReader where
  bytes : List Nat
  deriving DecidableEq

/-- Model of `VecReader::new`. -/
def VecReader.new (bytes : List Nat) : VecReader := ⟨bytes⟩

/-- Model of draining the reader: a `VecReader` yields exactly its byte vector. -/
def VecReader.read_to_end (r : VecReader) : List Nat := r.bytes

/-- A filesystem entry: a regular file with its byte contents, or a directory. -/
inductive FsEntry where
  | file (bytes : List Nat)
  | dir
  deriving DecidableEq

/-- Filesystem state: a finite association list from paths to entries, plus an
oracle telling which directory entries fail their individual retrieval
(the per-entry `io::Result` of `ReadDir`) during enumeration. -/
structure Fs where
  entries : List (FPath × FsEntry)
  entryFail : FPath → Bool

/-- Lookup in the entry association list (first match wins). -/
def Fs.lookupEntries : List (FPath × FsEntry) → FPath → Option FsEntry
  | [], _ => none
  | e :: rest, p => if e.1 = p then some e.2 else Fs.lookupEntries rest p

/-- The entry at path `p` in filesystem state `fs`, if any. -/
def Fs.lookup (fs : Fs) (p : FPath) : Option FsEntry :=
  Fs.lookupEntries fs.entries p

/-- Model of `std::path::Path::exists`: true for files and for directories. -/
def Fs.pathExists (fs : Fs) (p : FPath) : Bool :=
  (fs.lookup p).isSome

/-- Model of `std::path::Path::is_dir`: true iff a directory entry is at `p`. -/
def Fs.is_dir (fs : Fs) (p : FPath) : Bool :=
  match fs.lookup p with
  | some .dir => true
  | _ => false

/-- Model of `std::fs::read` against state `fs`: the bytes of a regular file;
a `NotFound` error for an absent path; and, as on POSIX, an `IsADirectory`
error (a kind other than `NotFound`) when the path is a directory. -/
def Fs.read (fs : Fs) (p : FPath) : Except IoError (List Nat) :=
  match fs.lookup p with
  | some (.file bs) => .ok bs
  | some .dir => .error ⟨.isADirectory⟩
  | none => .error ⟨.notFound⟩

/-- The child paths of `p` present in `fs`: paths exactly one component deeper. -/
def Fs.childrenOf (fs : Fs) (p : FPath) : List FPath :=
  fs.entries.filterMap
    (fun e => if e.1.dropLast = p ∧ e.1.length = p.length + 1 then some e.1 else none)

/-- Model of `std::fs::read_dir` against state `fs`: for a directory, the list
of per-entry results (an entry marked by `entryFail` yields an error result,
as `ReadDir` items are `io::Result<DirEntry>`); for a file, a `NotADirectory`
error; for an absent path, a `NotFound` error. -/
def Fs.read_dir (fs : Fs) (p : FPath) : Except IoError (List (Except IoError FPath)) :=
  match fs.lookup p with
  | some .dir =>
    .ok ((fs.childrenOf p).map
      (fun q => if fs.entryFail q then .error ⟨.permissionDenied⟩ else .ok q))
  | some (.file _) => .error ⟨.notADirectory⟩
  | none => .error ⟨.notFound⟩

/-- Model of a Rust panic (carrying the panic message). -/
inductive Panic where
  | mk (msg : String)
  deriving DecidableEq

/-- State of the oneshot channel once the worker thread has terminated:
either the result was sent, or the sender was dropped without sending
(the thread panicked before `tx.send`). -/
inductive OneshotState (R : Type) where
  | sent (value : R)
  | dropped

/-- The worker thread of `spawn_blocking`: runs `f` and sends the result on
the channel; if `f` panics, the thread unwinds and the sender is dropped. -/
def workerRun {R : Type} (f : Unit → Except Panic R) : OneshotState R :=
  match f () with
  | .ok r => .sent r
  | .error _ => .dropped

/-- Model of `rx.await.expect(msg)`: a sent value is returned; a dropped
sender (`Canceled`) makes `expect` panic with `msg`. -/
def recvExpect {R : Type} (msg : String) : OneshotState R → Except Panic R
  | .sent r => .ok r
  | .dropped => .error (.mk msg)

/-- Model of `spawn_blocking` (src/lib.rs lines 38-49): run the unit of work
on a worker thread, send its result over a oneshot channel, and await the
receiver, panicking with the fixed message if the sender was dropped. -/
def spawn_blocking {R : Type} (f : Unit → Except Panic R) : Except Panic R :=
  recvExpect "spawn_blocking thread panicked" (workerRun f)

/-- Split a component at its last `.`: `some (before, after)` when a dot
occurs, `none` otherwise (mirrors the Rust helper `split_file_at_dot`). -/
def splitLastDot : Component → Option (Component × Component)
  | [] => none
  | c :: cs =>
    match splitLastDot cs with
    | some (b, a) => some (c :: b, a)
    | none => if c = '.' then some ([], cs) else none

/-- Model of `std::path::Path::file_name`: the final normal component
(`..` as final component gives `none`). -/
def RPath.file_name (p : FPath) : Option Component :=
  match p.getLast? with
  | some c => if c = ['.', '.'] then none else some c
  | none => none

/-- Model of extension on a file name: the part after the last dot, provided
the part before it is non-empty (hidden files like `.gitignore` have none). -/
def Component.extPart (f : Component) : Option Component :=
  match splitLastDot f with
  | some (b, a) => if b = [] then none else some a
  | none => none

/-- Model of `std::path::Path::extension`. -/
def RPath.ext (p : FPath) : Option Component :=
  match RPath.file_name p with
  | some f => Component.extPart f
  | none => none

/-- Model of `std::path::Path::file_stem` on a file name: the part before the
last dot when the extension is defined, otherwise the whole name. -/
def Component.file_stem (f : Component) : Component :=
  match splitLastDot f with
  | some (b, _) => if b = [] then f else b
  | none => f

/-- Model of `std::path::PathBuf::set_extension`: without a file name the path
is unchanged; otherwise the file name is truncated to its stem and, for a
non-empty new extension, a dot and the new extension are appended. -/
def RPath.set_ext (p : FPath) (e : Component) : FPath :=
  match RPath.file_name p with
  | none => p
  | some f =>
    let newName := if e = [] then Component.file_stem f else Component.file_stem f ++ '.' :: e
    p.dropLast ++ [newName]

/-- Model of `FileAssetReader::make_meta_path` (src/lib.rs lines 75-82):
take the extension, append `.meta` to it, and substitute the result as the
new extension. -/
def FileAssetReader.make_meta_path (p : FPath) : Option FPath :=
  match RPath.ext p with
  | none => none
  | some e => some (RPath.set_ext p (e ++ ['.', 'm', 'e', 't', 'a']))

/-- The error mapping inside `FileAssetReader::file_get` (src/lib.rs lines
60-69), applied to the result of the offloaded `fs::read`: bytes become a
`VecReader`; a `NotFound`-kind error becomes `NotFound(path)`; every other
error becomes `Io(err)`. -/
def FileAssetReader.file_get_result (result : Except IoError (List Nat))
    (path_for_error : FPath) : Except AssetReaderError VecReader :=
  match result with
  | .ok bytes => .ok (VecReader.new bytes)
  | .error err =>
    if err.kind = .notFound then .error (.NotFound path_for_error)
    else .error (.Io err)

/-- Model of `FileAssetReader::file_get`: the offloaded `fs::read` is
evaluated against the filesystem state at read time, then its result is
mapped by `file_get_result`. -/
def FileAssetReader.file_get (fs : Fs) (path : FPath) : Except AssetReaderError VecReader :=
  FileAssetReader.file_get_result (fs.read path) path

/-- Model of `FileAssetReader::read` (src/lib.rs lines 87-101) with one
filesystem state per filesystem call: `fs_check` at the `exists` check,
`fs_read` at the offloaded read. If the path does not exist at check time,
fail with `NotFound(path)`; otherwise perform `file_get`. -/
def FileAssetReader.read_at (fs_check fs_read : Fs) (path : FPath) :
    Except AssetReaderError VecReader :=
  if fs_check.pathExists path then FileAssetReader.file_get fs_read path
  else .error (.NotFound path)

/-- Model of `FileAssetReader::read` in the race-free case: both filesystem
calls observe the same state. -/
def FileAssetReader.read (fs : Fs) (path : FPath) : Except AssetReaderError VecReader :=
  FileAssetReader.read_at fs fs path

/-- The sentinel path `PathBuf::from("source path has no extension")` used by
`read_meta` when no metadata path can be derived. -/
def sentinelNoExt : FPath :=
  [['s', 'o', 'u', 'r', 'c', 'e', ' ', 'p', 'a', 't', 'h', ' ', 'h', 'a', 's',
    ' ', 'n', 'o', ' ', 'e', 'x', 't', 'e', 'n', 's', 'i', 'o', 'n']]

/-- Model of `FileAssetReader::read_meta` (src/lib.rs lines 103-113): derive
the metadata path; if none can be derived, fail with `NotFound` at the
sentinel path; if the derived path does not exist, fail with `NotFound` at
the derived path; otherwise perform `file_get` on the derived path. -/
def FileAssetReader.read_meta (fs : Fs) (path : FPath) : Except AssetReaderError VecReader :=
  match FileAssetReader.make_meta_path path with
  | some meta_path =>
    if fs.pathExists meta_path then FileAssetReader.file_get fs meta_path
    else .error (.NotFound meta_path)
  | none => .error (.NotFound sentinelNoExt)

/-- Model of `FileAssetReader::is_directory` (src/lib.rs lines 115-117):
always `Ok`, reporting `path.is_dir()`. -/
def FileAssetReader.is_directory (fs : Fs) (path : FPath) : Except AssetReaderError Bool :=
  .ok (fs.is_dir path)

/-- Model of `FileAssetReader::read_directory` (src/lib.rs lines 119-136)
with one filesystem state per filesystem call: `fs_check` at the `is_dir`
check, `fs_enum` at the `fs::read_dir` enumeration. A failing enumeration
call maps to `Io`; per-entry failures are dropped by `filterMap`; a
non-directory at check time fails with `NotFound(path)`. -/
def FileAssetReader.read_directory_at (fs_check fs_enum : Fs) (path : FPath) :
    Except AssetReaderError (List FPath) :=
  if fs_check.is_dir path then
    match fs_enum.read_dir path with
    | .error e => .error (.Io e)
    | .ok dirEntries => .ok (dirEntries.filterMap (fun r => r.toOption))
  else .error (.NotFound path)

/-- Model of `FileAssetReader::read_directory` in the race-free case: both
filesystem calls observe the same state. -/
def FileAssetReader.read_directory (fs : Fs) (path : FPath) :
    Except AssetReaderError (List FPath) :=
  FileAssetReader.read_directory_at fs fs path

/-! Concrete filesystem states used by the witnesses. -/

/-- A state with a regular file `a.png` (bytes `[104, 105]`) and a directory `d`. -/
def fsA : Fs :=
  { entries := [([['a', '.', 'p', 'n', 'g']], .file [104, 105]), ([['d']], .dir)]
    entryFail := fun _ => false }

/-- A state with a directory `d` holding children `d/a` and `d/b`, where the
directory entry for `d/b` fails its individual retrieval. -/
def fsB : Fs :=
  { entries := [([['d']], .dir), ([['d'], ['a']], .file [1]), ([['d'], ['b']], .file [2])]
    entryFail := fun q => q = [['d'], ['b']] }

/-- The empty filesystem state. -/
def fsEmpty : Fs := { entries := [], entryFail := fun _ => false }

/-! Helper lemmas. -/

/-- A successful split at the last dot reassembles to the original component. -/
theorem splitLastDot_eq : ∀ (f b a : Component), splitLastDot f = some (b, a) →
    f = b ++ '.' :: a := by
  intro f
  induction f with
  | nil => intro b a h; simp [splitLastDot] at h
  | cons c cs ih =>
    intro b a h
    rcases hs : splitLastDot cs with _ | ⟨b1, a1⟩
    · rw [splitLastDot, hs] at h
      by_cases hc : c = '.'
      · simp [hc] at h
        obtain ⟨hb, ha⟩ := h
        subst hb; subst ha; simp [hc]
      · simp [hc] at h
    · rw [splitLastDot, hs] at h
      simp at h
      obtain ⟨hb, ha⟩ := h
      have hcs := ih b1 a1 hs
      subst hb; subst ha
      simp [hcs]

/-- Mapping per-entry results then keeping the successes is filtering out the
failing entries. -/
theorem filterMap_toOption_map (l : List FPath) (fail : FPath → Bool) (e : IoError) :
    ((l.map (fun q => if fail q then Except.error e else Except.ok q)).filterMap
      (fun r => Except.toOption r)) = l.filter (fun q => !fail q) := by
  induction l with
  | nil => rfl
  | cons x xs ih =>
    simp only [Except.toOption] at ih
    cases hx : fail x <;>
      simp [hx, ih, Except.toOption, List.filter_cons, -List.filterMap_map]

/-! Claim theorems. -/

/-- C1: for every path bound to a regular file in the filesystem state,
`FileAssetReader.read` succeeds and the returned reader yields exactly the
bytes of the file. -/
theorem C1_read_existing_file (fs : Fs) (p : FPath) (bs : List Nat)
    (h : fs.lookup p = some (.file bs)) :
    FileAssetReader.read fs p = .ok (VecReader.new bs) ∧
    (VecReader.new bs).read_to_end = bs := by
  refine ⟨?_, rfl⟩
  simp [FileAssetReader.read, FileAssetReader.read_at, Fs.pathExists, h,
    FileAssetReader.file_get, FileAssetReader.file_get_result, Fs.read]

/-- Witness for C1 at the file `a.png` of `fsA`. -/
theorem C1_read_existing_file_witness :
    FileAssetReader.read fsA [['a', '.', 'p', 'n', 'g']] = .ok (VecReader.new [104, 105]) ∧
    (VecReader.new [104, 105]).read_to_end = [104, 105] :=
  C1_read_existing_file fsA [['a', '.', 'p', 'n', 'g']] [104, 105] rfl

/-- C2: for every path absent from the filesystem state, `FileAssetReader.read`
fails with `NotFound` carrying exactly that path. -/
theorem C2_read_not_found (fs : Fs) (p : FPath) (h : fs.lookup p = none) :
    FileAssetReader.read fs p = .error (.NotFound p) := by
  simp [FileAssetReader.read, FileAssetReader.read_at, Fs.pathExists, h]

/-- Witness for C2 at a path absent from `fsA`. -/
theorem C2_read_not_found_witness :
    FileAssetReader.read fsA [['x']] = .error (.NotFound [['x']]) :=
  C2_read_not_found fsA [['x']] rfl

/-- C3: when the offloaded read fails, the mapped error is `NotFound(path)`
exactly when the underlying error kind is not-found, and `Io(err)` otherwise;
consequently a path that exists at check time but is gone at read time still
yields `NotFound(path)`. -/
theorem C3_file_get_error_mapping (err : IoError) (p : FPath) (fs_check fs_read : Fs)
    (hc : fs_check.pathExists p = true) (hr : fs_read.lookup p = none) :
    (FileAssetReader.file_get_result (.error err) p = .error (.NotFound p) ↔
      err.kind = .notFound) ∧
    (err.kind ≠ .notFound →
      FileAssetReader.file_get_result (.error err) p = .error (.Io err)) ∧
    FileAssetReader.read_at fs_check fs_read p = .error (.NotFound p) := by
  refine ⟨⟨?_, ?_⟩, ?_, ?_⟩
  · intro h
    by_contra hk
    simp [FileAssetReader.file_get_result, hk] at h
  · intro hk
    simp [FileAssetReader.file_get_result, hk]
  · intro hk
    simp [FileAssetReader.file_get_result, hk]
  · simp [FileAssetReader.read_at, hc, FileAssetReader.file_get, Fs.read, hr,
      FileAssetReader.file_get_result]

/-- Witness for C3 with a permission error and a file deleted between check
and read. -/
theorem C3_file_get_error_mapping_witness :
    (FileAssetReader.file_get_result (.error ⟨.permissionDenied⟩) [['a', '.', 'p', 'n', 'g']] =
        .error (.NotFound [['a', '.', 'p', 'n', 'g']]) ↔
      IoError.kind ⟨.permissionDenied⟩ = .notFound) ∧
    (IoError.kind ⟨.permissionDenied⟩ ≠ .notFound →
      FileAssetReader.file_get_result (.error ⟨.permissionDenied⟩) [['a', '.', 'p', 'n', 'g']] =
        .error (.Io ⟨.permissionDenied⟩)) ∧
    FileAssetReader.read_at fsA fsEmpty [['a', '.', 'p', 'n', 'g']] =
      .error (.NotFound [['a', '.', 'p', 'n', 'g']]) :=
  C3_file_get_error_mapping ⟨.permissionDenied⟩ [['a', '.', 'p', 'n', 'g']] fsA fsEmpty rfl rfl

/-- C4: for every path whose file name has an extension, the derived metadata
path is the original path with `.meta` appended after the extension; for
every path with no extension, no metadata path is derived. -/
theorem C4_make_meta_path (p : FPath) (f e : Component)
    (hf : RPath.file_name p = some f) (he : RPath.ext p = some e) :
    FileAssetReader.make_meta_path p =
      some (p.dropLast ++ [f ++ ['.', 'm', 'e', 't', 'a']]) ∧
    (∀ q : FPath, RPath.ext q = none → FileAssetReader.make_meta_path q = none) := by
  constructor
  · have hext : Component.extPart f = some e := by
      unfold RPath.ext at he
      rw [hf] at he
      exact he
    unfold Component.extPart at hext
    rcases hs : splitLastDot f with _ | ⟨b, a⟩
    · rw [hs] at hext; simp at hext
    · rw [hs] at hext
      simp only [] at hext
      by_cases hb : b = []
      · simp [hb] at hext
      · rw [if_neg hb] at hext
        injection hext with hea
        subst hea
        have hfeq := splitLastDot_eq f b a hs
        unfold FileAssetReader.make_meta_path
        unfold RPath.ext
        rw [hf]
        simp only []
        unfold Component.extPart
        rw [hs]
        simp only []
        rw [if_neg hb]
        simp only []
        unfold RPath.set_ext
        rw [hf]
        simp only []
        unfold Component.file_stem
        rw [hs]
        simp only []
        rw [if_neg hb]
        have hne : a ++ ['.', 'm', 'e', 't', 'a'] ≠ [] := by simp
        rw [if_neg hne, hfeq]
        simp
  · intro q hq
    unfold FileAssetReader.make_meta_path
    rw [hq]

/-- Witness for C4 at the path `image.png`. -/
theorem C4_make_meta_path_witness :
    FileAssetReader.make_meta_path [['i', 'm', 'a', 'g', 'e', '.', 'p', 'n', 'g']] =
      some (([['i', 'm', 'a', 'g', 'e', '.', 'p', 'n', 'g']] : FPath).dropLast ++
        [['i', 'm', 'a', 'g', 'e', '.', 'p', 'n', 'g'] ++ ['.', 'm', 'e', 't', 'a']]) ∧
    (∀ q : FPath, RPath.ext q = none → FileAssetReader.make_meta_path q = none) :=
  C4_make_meta_path [['i', 'm', 'a', 'g', 'e', '.', 'p', 'n', 'g']]
    ['i', 'm', 'a', 'g', 'e', '.', 'p', 'n', 'g'] ['p', 'n', 'g'] rfl rfl

/-- C5: for a path with no extension, `read_meta` fails with `NotFound` at the
sentinel placeholder path (so never with `Io`); for a path whose derived
metadata path does not exist, `read_meta` fails with `NotFound` at the
derived metadata path. -/
theorem C5_read_meta_not_found (fs : Fs) (p q mp : FPath)
    (hp : RPath.ext p = none)
    (hq : FileAssetReader.make_meta_path q = some mp)
    (hmp : fs.pathExists mp = false) :
    FileAssetReader.read_meta fs p = .error (.NotFound sentinelNoExt) ∧
    FileAssetReader.read_meta fs q = .error (.NotFound mp) := by
  constructor
  · rw [FileAssetReader.read_meta, FileAssetReader.make_meta_path, hp]
  · rw [FileAssetReader.read_meta, hq]
    simp [hmp]

/-- Witness for C5: `d` has no extension; `a.png.meta` is absent from `fsA`. -/
theorem C5_read_meta_not_found_witness :
    FileAssetReader.read_meta fsA [['d']] = .error (.NotFound sentinelNoExt) ∧
    FileAssetReader.read_meta fsA [['a', '.', 'p', 'n', 'g']] =
      .error (.NotFound [['a', '.', 'p', 'n', 'g', '.', 'm', 'e', 't', 'a']]) :=
  C5_read_meta_not_found fsA [['d']] [['a', '.', 'p', 'n', 'g']]
    [['a', '.', 'p', 'n', 'g', '.', 'm', 'e', 't', 'a']] rfl rfl rfl

/-- C6: for an existing directory, `read_directory` returns exactly the child
paths whose directory-entry retrieval succeeds, silently dropping the failing
entries; for a non-directory path (existing or not), it fails with `NotFound`
carrying that path. -/
theorem C6_read_directory (fs : Fs) (d p : FPath)
    (hd : fs.lookup d = some .dir) (hp : fs.is_dir p = false) :
    FileAssetReader.read_directory fs d =
      .ok ((fs.childrenOf d).filter (fun q => !fs.entryFail q)) ∧
    (∀ l, FileAssetReader.read_directory fs d = .ok l →
      ∀ q, q ∈ l ↔ (q ∈ fs.childrenOf d ∧ fs.entryFail q = false)) ∧
    FileAssetReader.read_directory fs p = .error (.NotFound p) := by
  have hdir : fs.is_dir d = true := by rw [Fs.is_dir, hd]
  have h1 : FileAssetReader.read_directory fs d =
      .ok ((fs.childrenOf d).filter (fun q => !fs.entryFail q)) := by
    rw [FileAssetReader.read_directory, FileAssetReader.read_directory_at, if_pos hdir]
    unfold Fs.read_dir
    rw [hd]
    simp only []
    rw [filterMap_toOption_map]
  refine ⟨h1, ?_, ?_⟩
  · intro l hl q
    rw [h1] at hl
    injection hl with hl
    subst hl
    simp [List.mem_filter]
  · rw [FileAssetReader.read_directory, FileAssetReader.read_directory_at, if_neg]
    rw [hp]
    simp

/-- Witness for C6 on `fsB`: directory `d` has children `d/a` (accessible) and
`d/b` (entry retrieval fails); `x` is not a directory. -/
theorem C6_read_directory_witness :
    FileAssetReader.read_directory fsB [['d']] =
      .ok ((fsB.childrenOf [['d']]).filter (fun q => !fsB.entryFail q)) ∧
    (∀ l, FileAssetReader.read_directory fsB [['d']] = .ok l →
      ∀ q, q ∈ l ↔ (q ∈ fsB.childrenOf [['d']] ∧ fsB.entryFail q = false)) ∧
    FileAssetReader.read_directory fsB [['x']] = .error (.NotFound [['x']]) :=
  C6_read_directory fsB [['d']] [['x']] rfl rfl

/-- C7: `is_directory` never produces an error and reports exactly whether a
directory entry is at the path; it is false both for absent paths and for
existing non-directory entries. -/
theorem C7_is_directory (fs : Fs) (p : FPath) :
    FileAssetReader.is_directory fs p = .ok (fs.is_dir p) ∧
    (∀ e, FileAssetReader.is_directory fs p ≠ .error e) ∧
    (fs.is_dir p = true ↔ fs.lookup p = some .dir) := by
  refine ⟨rfl, ?_, ?_⟩
  · intro e h
    simp [FileAssetReader.is_directory] at h
  · rw [Fs.is_dir]
    cases hl : fs.lookup p with
    | none => simp
    | some entry => cases entry <;> simp

/-- Witness for C7 at the directory `d` of `fsA`. -/
theorem C7_is_directory_witness :
    FileAssetReader.is_directory fsA [['d']] = .ok (fsA.is_dir [['d']]) ∧
    (∀ e, FileAssetReader.is_directory fsA [['d']] ≠ .error e) ∧
    (fsA.is_dir [['d']] = true ↔ fsA.lookup [['d']] = some .dir) :=
  C7_is_directory fsA [['d']]

/-- C8: the future returned by `spawn_blocking` resolves to exactly the value
the unit of work produced when the worker completes normally; if the worker
panics before sending, awaiting fails with the fixed `expect` panic (a value
of the panic type, not of the `AssetReaderError` vocabulary). -/
theorem C8_spawn_blocking (R : Type) (f g : Unit → Except Panic R) (r : R) (pe : Panic)
    (hf : f () = .ok r) (hg : g () = .error pe) :
    spawn_blocking f = .ok r ∧
    spawn_blocking g = .error (.mk "spawn_blocking thread panicked") := by
  constructor
  · unfold spawn_blocking workerRun
    rw [hf]
    rfl
  · unfold spawn_blocking workerRun
    rw [hg]
    rfl

/-- Witness for C8 with a normally completing and a panicking unit of work. -/
theorem C8_spawn_blocking_witness :
    spawn_blocking (fun _ => (.ok 7 : Except Panic Nat)) = .ok 7 ∧
    spawn_blocking (fun _ => (.error (.mk "boom") : Except Panic Nat)) =
      .error (.mk "spawn_blocking thread panicked") :=
  C8_spawn_blocking Nat (fun _ => .ok 7) (fun _ => .error (.mk "boom")) 7 (.mk "boom") rfl rfl

/-- C9: for a path holding a directory, `read` does not fail with `NotFound`:
the existence check passes, the offloaded read fails with an is-a-directory
error, and the call returns `Io`. -/
theorem C9_read_on_directory (fs : Fs) (p : FPath) (h : fs.lookup p = some .dir) :
    FileAssetReader.read fs p = .error (.Io ⟨.isADirectory⟩) ∧
    ∀ q : FPath, FileAssetReader.read fs p ≠ .error (.NotFound q) := by
  have h1 : FileAssetReader.read fs p = .error (.Io ⟨.isADirectory⟩) := by
    simp [FileAssetReader.read, FileAssetReader.read_at, Fs.pathExists, h,
      FileAssetReader.file_get, Fs.read, FileAssetReader.file_get_result]
  refine ⟨h1, ?_⟩
  intro q hq
  rw [h1] at hq
  simp at hq

/-- Witness for C9 at the directory `d` of `fsA`. -/
theorem C9_read_on_directory_witness :
    FileAssetReader.read fsA [['d']] = .error (.Io ⟨.isADirectory⟩) ∧
    ∀ q : FPath, FileAssetReader.read fsA [['d']] ≠ .error (.NotFound q) :=
  C9_read_on_directory fsA [['d']] rfl

/-- C10: when the path is a directory at the initial check but the enumeration
call itself fails, `read_directory` returns `Io` with the underlying error,
never `NotFound`. -/
theorem C10_read_directory_io (fs_check fs_enum : Fs) (p : FPath) (e : IoError)
    (hc : fs_check.is_dir p = true) (he : fs_enum.read_dir p = .error e) :
    FileAssetReader.read_directory_at fs_check fs_enum p = .error (.Io e) ∧
    ∀ q : FPath, FileAssetReader.read_directory_at fs_check fs_enum p ≠
      .error (.NotFound q) := by
  have h1 : FileAssetReader.read_directory_at fs_check fs_enum p = .error (.Io e) := by
    rw [FileAssetReader.read_directory_at, if_pos hc, he]
  refine ⟨h1, ?_⟩
  intro q hq
  rw [h1] at hq
  simp at hq

/-- Witness for C10: `d` is a directory at check time in `fsA` but gone from
the enumeration-time state, so the enumeration error is surfaced as `Io`. -/
theorem C10_read_directory_io_witness :
    FileAssetReader.read_directory_at fsA fsEmpty [['d']] = .error (.Io ⟨.notFound⟩) ∧
    ∀ q : FPath, FileAssetReader.read_directory_at fsA fsEmpty [['d']] ≠
      .error (.NotFound q) :=
  C10_read_directory_io fsA fsEmpty [['d']] ⟨.notFound⟩ rfl rfl
